import Mathlib

/-!
Verification of the gargantua confidential-payment program against its
specification.  The Ristretto group is cyclic of prime order ℓ, so points are
modelled by their discrete logarithms with respect to the basepoint `G`:
a point is an element of `ZMod ell`, `G` is `1`, the identity `O` is `0`,
point addition is field addition and scalar multiplication is field
multiplication.  The second Pedersen generator `H` has an unknown discrete
logarithm and is carried as a parameter `hGen`.  SHA-256 (from the external
`sha2` crate) is carried as an abstract parameter `sha`.
-/

namespace Zerosol

/-- Order of the Ristretto group and of the `curve25519_dalek` scalar field:
`2^252 + 27742317777372353535851937790883648493` (the constant `GROUP_ORDER`
in `utils.rs`, little-endian). -/
def ell : Nat := 7237005577332262213973186563042994240857116359379907606001950938285454250989

/-- A scalar of the program (`curve25519_dalek::scalar::Scalar`): an integer
modulo the group order. -/
abbrev Scalar := ZMod ell

/-- A Ristretto point, represented by its discrete logarithm with respect to
the basepoint (`G1Point` in `utils.rs`).  `0` is the identity, `1` is `G`. -/
abbrev Point := ZMod ell

/-! ## Byte strings and the point codec

32-byte strings are modelled as lists of naturals.  The Ristretto compressed
encoding (from the external `curve25519_dalek` crate) is modelled by a codec
with the interface properties the program relies on: encoding is injective,
the identity point encodes as 32 zero bytes, decoding only succeeds on
canonical encodings and round-trips with encoding. -/

/-- Little-endian interpretation of a byte list. -/
def natOfLeBytes : List Nat → Nat
  | [] => 0
  | b :: bs => b + 256 * natOfLeBytes bs

/-- The `k` little-endian bytes of `n`. -/
def leBytesAux : Nat → Nat → List Nat
  | 0, _ => []
  | k + 1, n => n % 256 :: leBytesAux k (n / 256)

/-- The 32 little-endian bytes of `n` (`Scalar::as_bytes`, and our modelled
point encoding). -/
def leBytes32 (n : Nat) : List Nat := leBytesAux 32 n

/-- Modelled compressed-Ristretto encoding of a point
(`RistrettoPoint::compress`, `G1Point::to_bytes`). -/
def encodePoint (p : Point) : List Nat := leBytes32 p.val

/-- Modelled decoding of a compressed Ristretto point
(`CompressedRistretto::decompress`, `G1Point::from_bytes`): succeeds exactly
on canonical 32-byte encodings; 32 zero bytes decode to the identity. -/
def decodePoint (bs : List Nat) : Option Point :=
  if bs.length = 32 ∧ bs.all (· < 256) ∧ natOfLeBytes bs < ell then
    some ((natOfLeBytes bs : Nat) : Point)
  else none

/-- Rust `Scalar::from_bytes_mod_order` / `scalar_from_bytes` in `utils.rs`:
little-endian bytes reduced mod the group order. -/
def scalarFromBytes (bs : List Nat) : Scalar := ((natOfLeBytes bs : Nat) : Scalar)

/-- ASCII bytes of a string literal (for the transcript and seed labels). -/
def strBytes (s : String) : List Nat := s.data.map Char.toNat

/-- ASCII decimal digits of `n`, as produced by Rust format strings. -/
def asciiDigits (n : Nat) : List Nat := (Nat.toDigits 10 n).map Char.toNat

/-! ## Precomputed-table scalar multiplication (`curve_ops.rs`)

`PrecomputedTable::scalar_mul` walks the bytes of `scalar.as_bytes()` (which
are little-endian), adds the table entry for the high nibble, doubles four
times, adds the entry for the low nibble, and doubles four more times.  Since
entry `k` of the table is `(k+1)·P`, the whole computation collapses to a
single coefficient times the base point. -/

/-- The accumulated coefficient of `PrecomputedTable::scalar_mul` after
processing the given bytes: per byte `b`,
`acc ← ((acc + (b >> 4)) * 16 + (b & 0x0F)) * 16`. -/
def tableCoeff : List Nat → Nat → Nat
  | [], acc => acc
  | b :: bs, acc => tableCoeff bs (((acc + b / 16) * 16 + b % 16) * 16)

/-- Rust `PrecomputedTable::scalar_mul` for the table built on base point `p`. -/
def tableScalarMul (p : Point) (s : Scalar) : Point :=
  ((tableCoeff (leBytes32 s.val) 0 : Nat) : Scalar) * p

/-- Rust `CurveOpsManager::fast_scalar_mul`: the precomputed table is used iff the
point is the basepoint `G` or the Pedersen generator `H` (whose discrete log
is the parameter `hGen`); other points use plain multiplication. -/
def fastScalarMul (hGen : Point) (p : Point) (s : Scalar) : Point :=
  if p = 1 then tableScalarMul p s
  else if p = hGen then tableScalarMul p s
  else s * p

/-- Rust `CurveOpsManager::pedersen_commit`: both parts go through the
precomputed tables. -/
def pedersenCommitOps (hGen : Point) (value blinding : Scalar) : Point :=
  tableScalarMul 1 value + tableScalarMul hGen blinding

/-! `lib.rs` calls `init_optimized_curve_ops()` before dispatching every
instruction, so the global `CurveOpsManager` is always initialised and every
`catch_unwind(|| get_curve_ops())` in the program takes the `Ok` branch.  The
definitions below therefore model the accelerated branches. -/

/-- Rust `G1Point::add` (via `cached_point_add`; the SHA-keyed cache returns the
plain sum, modelled collision-free). -/
def g1Add (p q : Point) : Point := p + q

/-- Rust `G1Point::neg`. -/
def g1Neg (p : Point) : Point := -p

/-- Rust `G1Point::mul` with the accelerator initialised: `fast_scalar_mul`. -/
def g1Mul (hGen : Point) (p : Point) (s : Scalar) : Point := fastScalarMul hGen p s

/-- Rust `SpecializedOps::verify_range_constraints`: rejects iff some point is the
identity (the `range_bits` argument is unused by the code). -/
def verifyRangeConstraints (points : List Point) : Bool :=
  points.all (fun p => p ≠ 0)

/-- Dalek's `Scalar::invert`, which raises to the power `ℓ - 2`. -/
def sinv (x : Scalar) : Scalar := x ^ (ell - 2)

/-! ## Fiat–Shamir transcript (`bulletproof.rs`)

`Transcript` holds a rolling `Sha256` hasher; the state is the byte sequence
absorbed since the last (re)initialisation.  `challenge_scalar` calls
`finalize_reset`, which hashes the absorbed bytes and resets the hasher to
the fresh state — nothing is cloned and the produced scalar is not folded
back. -/

/-- The transcript state: bytes absorbed since the last reset. -/
abbrev Transcript := List Nat

/-- Rust `Transcript::new`. -/
def tNew : Transcript := []

/-- Rust `Transcript::append_point` / `append_scalar`: absorb label then payload
bytes (no length prefixes in this implementation). -/
def tAppend (t : Transcript) (label payload : List Nat) : Transcript :=
  t ++ label ++ payload

/-- Rust `Transcript::challenge_scalar`: absorb the label, hash with
`finalize_reset` (reducing mod the group order), and return the scalar
together with the post-call state, which is the fresh empty state. -/
def tChallenge (sha : List Nat → List Nat) (t : Transcript) (label : List Nat) :
    Scalar × Transcript :=
  (scalarFromBytes (sha (t ++ label)), [])

/-! ## Bulletproof range-proof verifier (`bulletproof.rs`) -/

/-- Rust `bulletproof::InnerProductProof` (decoded form). -/
structure IPP where
  lVec : List Point
  rVec : List Point
  a : Scalar
  b : Scalar
  deriving DecidableEq

/-- Rust `bulletproof::RangeProof` (decoded form). -/
structure RangeProofM where
  a : Point
  s : Point
  t1 : Point
  t2 : Point
  tHat : Scalar
  tauX : Scalar
  mu : Scalar
  ipp : IPP
  deriving DecidableEq

/-- Rust `utils::map_to_curve`: SHA-256 of the seed, reduced to a scalar, times
the basepoint; in discrete-log form the scalar itself. -/
def mapToCurve (sha : List Nat → List Nat) (seed : List Nat) : Point :=
  scalarFromBytes (sha seed) * 1

/-- Generator `g[i]` of `BulletproofVerifier::new` (seed `bulletproof_g_<i>`). -/
def bpG (sha : List Nat → List Nat) (i : Nat) : Point :=
  mapToCurve sha (strBytes "bulletproof_g_" ++ asciiDigits i)

/-- Generator `h[i]` of `BulletproofVerifier::new` (seed `bulletproof_h_<i>`). -/
def bpH (sha : List Nat → List Nat) (i : Nat) : Point :=
  mapToCurve sha (strBytes "bulletproof_h_" ++ asciiDigits i)

/-- Generator `u` of `BulletproofVerifier::new` (seed `bulletproof_u`). -/
def bpU (sha : List Nat → List Nat) : Point :=
  mapToCurve sha (strBytes "bulletproof_u")

/-- Rust `BulletproofVerifier::compute_t_hat`:
`Σ_{i<n} (y^i·(z − z²) − z²·2^i)`.  It reads neither `τ_x`, `T1`, `T2` nor
any commitment. -/
def computeTHat (y z : Scalar) (n : Nat) : Scalar :=
  (List.range n).foldl
    (fun acc i => acc + (y ^ i * (z - z * z) - z * z * ((2 ^ i : Nat) : Scalar))) 0

/-- Rust `RangeConstraintVerifier::verify_bit_constraint` on the accelerated path:
`verify_range_constraints([c, c − G], 1)`, i.e. true iff neither `c` nor
`c − G` is the identity. -/
def verifyBitConstraint (c : Point) : Bool :=
  verifyRangeConstraints [c, g1Add c (g1Neg 1)]

/-- Rust `RangeConstraintVerifier::verify_range_constraint` applied to the dummy
proof built inside `verify_range_proof`, whose `bit_commitments` are
`bit_length` copies of the commitment itself: every bit constraint is checked
on the commitment, then `Σ_{i<bit_length} 2^i·c` must equal `c`. -/
def verifyRangeConstraintDummy (hGen : Point) (c : Point) (bitLength : Nat) : Bool :=
  if (List.replicate bitLength c).all verifyBitConstraint then
    decide ((List.range bitLength).foldl
      (fun acc i => g1Add acc (g1Mul hGen c ((2 ^ i : Nat) : Scalar))) 0 = c)
  else false

/-- One folding round of `verify_inner_product`, lines 204–223 of
`bulletproof.rs`: absorb `L`, `R`, squeeze `u`, update `P`, fold and halve
the generator vectors. -/
def vipRound (sha : List Nat → List Nat) (hGen : Point) (lr : Point × Point)
    (st : Point × List Point × List Point × Transcript) :
    Point × List Point × List Point × Transcript :=
  let (p, gv, hv, t) := st
  let t1 := tAppend t (strBytes "L") (encodePoint lr.1)
  let t2 := tAppend t1 (strBytes "R") (encodePoint lr.2)
  let (u, t3) := tChallenge sha t2 (strBytes "u")
  let uInv := sinv u
  let p1 := g1Add (g1Add p (g1Mul hGen lr.1 (u * u))) (g1Mul hGen lr.2 (uInv * uInv))
  let half := gv.length / 2
  let gv1 := (List.range half).map
    (fun i => g1Add (g1Mul hGen (gv.getD i 0) uInv) (g1Mul hGen (gv.getD (i + half) 0) u))
  let hv1 := (List.range half).map
    (fun i => g1Add (g1Mul hGen (hv.getD i 0) u) (g1Mul hGen (hv.getD (i + half) 0) uInv))
  (p1, gv1, hv1, t3)

/-- Rust `BulletproofVerifier::verify_inner_product` (the verifier has been built
with `n` generators available from index 0).  `none` models
`Err(InvalidArgument)`. -/
def verifyInnerProduct (sha : List Nat → List Nat) (hGen : Point) (proof : IPP)
    (y z _x : Scalar) (n : Nat) (t : Transcript) : Option Bool :=
  if proof.lVec.length ≠ proof.rVec.length then none
  else if 2 ^ proof.lVec.length ≠ n then none
  else
    let gv := (List.range n).map (bpG sha)
    let yInv := sinv y
    let hv := (List.range n).map (fun i => g1Mul hGen (bpH sha i) (yInv ^ i))
    let z2 := z * z
    let p0 := (List.range n).foldl
      (fun acc i =>
        g1Add (g1Add acc (g1Mul hGen (gv.getD i 0) (-z)))
          (g1Mul hGen (hv.getD i 0) (z2 * ((2 ^ (i % 32) : Nat) : Scalar) * yInv ^ i))) 0
    let final := (proof.lVec.zip proof.rVec).foldl
      (fun st lr => vipRound sha hGen lr st) (p0, gv, hv, t)
    let (p, gvF, hvF, _) := final
    if gvF.length ≠ 1 ∨ hvF.length ≠ 1 then some false
    else
      let expected := g1Add (g1Add (g1Mul hGen (gvF.getD 0 0) proof.a)
        (g1Mul hGen (hvF.getD 0 0) proof.b)) (g1Mul hGen (bpU sha) (proof.a * proof.b))
      some (decide (p = expected))

/-- Rust `BulletproofVerifier::verify_range_proof` for a verifier built with
`nMax` generators (`BulletproofVerifier::new(nMax)`).  `none` models
`Err(InvalidArgument)`.  Note that `proof.tauX` and `proof.mu` are never
read. -/
def verifyRangeProof (sha : List Nat → List Nat) (hGen : Point) (nMax : Nat)
    (commitment : Point) (proof : RangeProofM) (bitLength : Nat) : Option Bool :=
  if bitLength > nMax then none
  else if proof.ipp.lVec.length ≠ proof.ipp.rVec.length then none
  else if 2 ^ proof.ipp.lVec.length ≠ bitLength then none
  else if ¬ verifyRangeConstraintDummy hGen commitment bitLength then some false
  else if ¬ verifyRangeConstraints [commitment] then some false
  else
    let t1 := tAppend tNew (strBytes "V") (encodePoint commitment)
    let t2 := tAppend t1 (strBytes "A") (encodePoint proof.a)
    let t3 := tAppend t2 (strBytes "S") (encodePoint proof.s)
    let (y, t4) := tChallenge sha t3 (strBytes "y")
    let (z, t5) := tChallenge sha t4 (strBytes "z")
    let t6 := tAppend t5 (strBytes "T1") (encodePoint proof.t1)
    let t7 := tAppend t6 (strBytes "T2") (encodePoint proof.t2)
    let (_x, t8) := tChallenge sha t7 (strBytes "x")
    if proof.tHat ≠ computeTHat y z bitLength then some false
    else verifyInnerProduct sha hGen proof.ipp y z _x bitLength t8

/-! ## Account state (`state.rs`)

On-ledger accounts store commitments as 32-byte canonical encodings; the
program reads them back with `G1Point::from_bytes` and writes them with
`to_bytes`, so they are modelled directly as points.  `[0u8; 32]` is the
canonical encoding of the identity, so zero-initialised commitment fields
decode to the identity point `0`. -/

/-- Rust `state::ZerosolAccount`. -/
structure ZerosolAccountM where
  commitmentLeft : Point
  commitmentRight : Point
  publicKey : List Nat
  lastRollover : Nat
  isRegistered : Bool
  deriving DecidableEq

/-- Rust `state::PendingAccount`. -/
structure PendingAccountM where
  commitmentLeft : Point
  commitmentRight : Point
  deriving DecidableEq

/-- Rust `state::NonceState`. -/
structure NonceStateM where
  nonce : List Nat
  epoch : Nat
  used : Bool
  deriving DecidableEq

/-- Rust `ZerosolAccount::new`: zeroed commitments (the identity point),
`last_rollover = 0`, `is_registered = false`. -/
def zerosolAccountNew (publicKey : List Nat) : ZerosolAccountM :=
  { commitmentLeft := 0, commitmentRight := 0, publicKey := publicKey,
    lastRollover := 0, isRegistered := false }

/-- Rust `PendingAccount::new`: zeroed commitments (the identity point). -/
def pendingAccountNew : PendingAccountM := { commitmentLeft := 0, commitmentRight := 0 }

/-- Rust `error::ZerosolError`. -/
inductive ZerosolError where
  | InvalidInstruction
  | AccountNotRegistered
  | AccountAlreadyRegistered
  | InvalidRegistrationSignature
  | TransferAmountOutOfRange
  | NonceAlreadySeen
  | TransferProofVerificationFailed
  | BurnProofVerificationFailed
  | InnerProductProofVerificationFailed
  | SigmaProtocolChallengeFailed
  | InvalidEpoch
  | InsufficientFunds
  | InvalidAccountData
  | InvalidProofStructure
  | RangeProofVerificationFailed
  | ConstraintSystemVerificationFailed
  | BalanceConservationFailed
  | PolynomialEvaluationFailed
  | ArithmeticConstraintFailed
  | InvalidCommitment
  | EpochTransitionError
  deriving DecidableEq

/-- Errors a handler can surface: program-level errors
(`solana_program::program_error::ProgramError`) plus the custom
`ZerosolError`s; `indexPanic` models a Rust out-of-bounds panic. -/
inductive ProgErr where
  | zerosol (e : ZerosolError)
  | invalidAccountData
  | invalidArgument
  | missingSignature
  | indexPanic
  deriving DecidableEq

/-- Rust `MAX_TRANSFER_AMOUNT` in `utils.rs`: `2^32 - 1`. -/
def MAX_TRANSFER_AMOUNT : Nat := 4294967295

/-- Rust `epoch(now)` as computed by every handler:
`clock.unix_timestamp as u64 / global_state.epoch_length`. -/
def epochOf (now epochLength : Nat) : Nat := now / epochLength

/-! ## Proof wire structures (`state.rs`) -/

/-- Rust `state::InnerProductProof` (wire format, 32-byte strings). -/
structure IPPWire where
  lPoints : List (List Nat)
  rPoints : List (List Nat)
  a : List Nat
  b : List Nat
  deriving DecidableEq

/-- Rust `state::ZerosolProof` (wire format). -/
structure ZerosolProofW where
  ba : List Nat
  bs : List Nat
  a : List Nat
  b : List Nat
  clnG : List (List Nat)
  crnG : List (List Nat)
  c0G : List (List Nat)
  dg : List (List Nat)
  y0G : List (List Nat)
  gg : List (List Nat)
  cXg : List (List Nat)
  yXg : List (List Nat)
  f : List (List Nat)
  zA : List Nat
  t1 : List Nat
  t2 : List Nat
  tHat : List Nat
  mu : List Nat
  c : List Nat
  sSk : List Nat
  sR : List Nat
  sB : List Nat
  sTau : List Nat
  ipProof : IPPWire
  deriving DecidableEq

/-- Rust `state::BurnProof` (wire format). -/
structure BurnProofW where
  ba : List Nat
  bs : List Nat
  t1 : List Nat
  t2 : List Nat
  tHat : List Nat
  mu : List Nat
  c : List Nat
  sSk : List Nat
  sB : List Nat
  sTau : List Nat
  ipProof : IPPWire
  deriving DecidableEq

/-- Decode a wire inner-product proof (`processor.rs`, inside the two
`convert_*_to_range_proof` functions). -/
def convertIpp (w : IPPWire) : Option IPP := do
  let lv ← w.lPoints.mapM decodePoint
  let rv ← w.rPoints.mapM decodePoint
  pure { lVec := lv, rVec := rv, a := scalarFromBytes w.a, b := scalarFromBytes w.b }

/-- Rust `convert_zerosol_proof_to_range_proof`: note that the range proof's
`tau_x` is filled from the wire field `s_tau`. -/
def convertZerosolProof (w : ZerosolProofW) : Option RangeProofM := do
  let ipp ← convertIpp w.ipProof
  let pa ← decodePoint w.ba
  let ps ← decodePoint w.bs
  let p1 ← decodePoint w.t1
  let p2 ← decodePoint w.t2
  pure { a := pa, s := ps, t1 := p1, t2 := p2, tHat := scalarFromBytes w.tHat,
         tauX := scalarFromBytes w.sTau, mu := scalarFromBytes w.mu, ipp := ipp }

/-- Rust `convert_burn_proof_to_range_proof`. -/
def convertBurnProof (w : BurnProofW) : Option RangeProofM := do
  let ipp ← convertIpp w.ipProof
  let pa ← decodePoint w.ba
  let ps ← decodePoint w.bs
  let p1 ← decodePoint w.t1
  let p2 ← decodePoint w.t2
  pure { a := pa, s := ps, t1 := p1, t2 := p2, tHat := scalarFromBytes w.tHat,
         tauX := scalarFromBytes w.sTau, mu := scalarFromBytes w.mu, ipp := ipp }

/-- Rust `processor::verify_epoch_constraints`: every public key must decode to a
point distinct from the identity; the epoch argument is not consulted. -/
def verifyEpochConstraints (_epoch : Nat) (publicKeys : List (List Nat)) : Bool :=
  publicKeys.all (fun pk =>
    match decodePoint pk with
    | some p => decide (p ≠ 0)
    | none => false)

/-- Rust `processor::verify_sufficient_balance`. -/
def verifySufficientBalance (accountCommitment burnCommitment : Point) : Bool :=
  ¬ (accountCommitment = 0 ∧ ¬ burnCommitment = 0)

/-- Rust `processor::verify_transfer_proof`: converts the wire proof, runs the
range-proof verifier (with 64 generators) on every `C` commitment and on
`D` with 32-bit range, decodes every public key, and finishes with
`verify_epoch_constraints`. -/
def verifyTransferProof (sha : List Nat → List Nat) (hGen : Point)
    (proof : ZerosolProofW) (commitmentsC : List (List Nat)) (commitmentD : List Nat)
    (publicKeys : List (List Nat)) (epoch : Nat) : Bool :=
  match convertZerosolProof proof with
  | none => false
  | some rp =>
    if commitmentsC.all (fun cb =>
        match decodePoint cb with
        | none => false
        | some c => (verifyRangeProof sha hGen 64 c rp 32).getD false) then
      match decodePoint commitmentD with
      | none => false
      | some d =>
        if (verifyRangeProof sha hGen 64 d rp 32).getD false then
          if publicKeys.all (fun pk => (decodePoint pk).isSome) then
            verifyEpochConstraints epoch publicKeys
          else false
        else false
    else false

/-- Rust `processor::verify_burn_proof` (the account passed in is the state after
any rollover). -/
def verifyBurnProof (sha : List Nat → List Nat) (hGen : Point) (proof : BurnProofW)
    (account : ZerosolAccountM) (amount : Nat) (_epoch : Nat) : Bool :=
  if ¬ verifyRangeConstraints [account.commitmentLeft] then false
  else
    match convertBurnProof proof with
    | none => false
    | some rp =>
      if amount > MAX_TRANSFER_AMOUNT then false
      else
        let burnCommitment := pedersenCommitOps hGen ((amount : Nat) : Scalar) 0
        if ¬ (verifyRangeProof sha hGen 32 burnCommitment rp 32).getD false then false
        else verifySufficientBalance account.commitmentLeft burnCommitment

/-- Rust `utils::hash_to_scalar`. -/
def hashToScalar (sha : List Nat → List Nat) (data : List Nat) : Scalar :=
  scalarFromBytes (sha data)

/-- Rust `utils::verify_schnorr_signature`: recompute
`k = response·G − challenge·pk` and compare the double-hashed transcript of
`(message, pk, k)` with the claimed challenge. -/
def verifySchnorrSignature (sha : List Nat → List Nat) (hGen : Point)
    (publicKey : Point) (message : List Nat) (challenge response : Scalar) : Bool :=
  let k := g1Add (g1Mul hGen 1 response) (g1Mul hGen publicKey (-challenge))
  hashToScalar sha (sha (message ++ encodePoint publicKey ++ encodePoint k)) = challenge

/-! ## Instruction handlers (`processor.rs`)

Host-side effects (account creation, rent, SPL token transfers, signer
checks that precede everything) are outside the core and are not part of the
state the claims speak about; the handlers below model the core state
transitions on the Zerosol/pending/nonce account contents.  A handler that
returns an error leaves no state mutation visible (the host rolls the
transaction back).

Fidelity note: the `ZerosolAccountM` component of a handler's result is the
in-memory struct the Rust code computes.  Outside `process_register` the
source never serialises the mutated `ZerosolAccount` back to the ledger (a
further divergence, independent of the claims below): on-ledger, the settled
commitments and `last_rollover` stay stale while the cleared pending account
is persisted. -/

/-- Rust `processor::rollover_account`: a no-op when `last_rollover ≥
current_epoch`; otherwise fold the pending commitments into the settled
ones, stamp the epoch and clear the pending account. -/
def rolloverAccount (za : ZerosolAccountM) (pa : PendingAccountM)
    (currentEpoch : Nat) : ZerosolAccountM × PendingAccountM :=
  if za.lastRollover ≥ currentEpoch then (za, pa)
  else
    ({ za with
        commitmentLeft := g1Add za.commitmentLeft pa.commitmentLeft,
        commitmentRight := g1Add za.commitmentRight pa.commitmentRight,
        lastRollover := currentEpoch },
      pendingAccountNew)

/-- Rust `processor::process_rollover`: compute the epoch from the clock and the
global state and call `rollover_account`. -/
def processRollover (za : ZerosolAccountM) (pa : PendingAccountM)
    (epochLength now : Nat) : ZerosolAccountM × PendingAccountM :=
  rolloverAccount za pa (epochOf now epochLength)

/-- Rust `processor::process_register`: decode the public key, verify the Schnorr
signature over the program id, then create the Zerosol account (zeroed
settled commitments, `last_rollover = 0`, registered) and the pending
account holding `(pk, G)`. -/
def processRegister (sha : List Nat → List Nat) (hGen : Point)
    (programId : List Nat) (publicKey challenge response : List Nat) :
    Except ProgErr (ZerosolAccountM × PendingAccountM) :=
  match decodePoint publicKey with
  | none => .error .invalidAccountData
  | some pkPoint =>
    let challengeScalar := scalarFromBytes challenge
    let responseScalar := scalarFromBytes response
    if ¬ verifySchnorrSignature sha hGen pkPoint programId challengeScalar responseScalar then
      .error (.zerosol .InvalidRegistrationSignature)
    else
      .ok ({ zerosolAccountNew publicKey with isRegistered := true },
           { commitmentLeft := pkPoint, commitmentRight := 1 })

/-- Rust `processor::process_fund`: range-check the amount, require registration,
roll over if the epoch advanced, then add the optimised Pedersen commitment
of the amount (blinding 0) to the pending left commitment. -/
def processFund (hGen : Point) (za : ZerosolAccountM) (pa : PendingAccountM)
    (epochLength now amount : Nat) :
    Except ProgErr (ZerosolAccountM × PendingAccountM) :=
  if amount > MAX_TRANSFER_AMOUNT then .error (.zerosol .TransferAmountOutOfRange)
  else if ¬ za.isRegistered then .error (.zerosol .AccountNotRegistered)
  else
    let currentEpoch := epochOf now epochLength
    let (za1, pa1) :=
      if za.lastRollover < currentEpoch then rolloverAccount za pa currentEpoch
      else (za, pa)
    let amountCommitment := pedersenCommitOps hGen ((amount : Nat) : Scalar) 0
    .ok (za1, { pa1 with commitmentLeft := g1Add pa1.commitmentLeft amountCommitment })

/-- Rust `processor::process_burn`: amount range check; nonce gate (the stored
`epoch` field is not compared, only `used`); registration; rollover; burn
proof; subtract the amount commitment from the pending left commitment; mark
the nonce used for the current epoch. -/
def processBurn (sha : List Nat → List Nat) (hGen : Point)
    (za : ZerosolAccountM) (pa : PendingAccountM) (nonceAccount : Option NonceStateM)
    (epochLength now amount : Nat) (nonce : List Nat) (proof : BurnProofW) :
    Except ProgErr (ZerosolAccountM × PendingAccountM × NonceStateM) :=
  if amount > MAX_TRANSFER_AMOUNT then .error (.zerosol .TransferAmountOutOfRange)
  else if (nonceAccount.map (·.used)).getD false then .error (.zerosol .NonceAlreadySeen)
  else
    let currentEpoch := epochOf now epochLength
    if ¬ za.isRegistered then .error (.zerosol .AccountNotRegistered)
    else
      let (za1, pa1) :=
        if za.lastRollover < currentEpoch then rolloverAccount za pa currentEpoch
        else (za, pa)
      if ¬ verifyBurnProof sha hGen proof za1 amount currentEpoch then
        .error (.zerosol .BurnProofVerificationFailed)
      else
        let amountCommitment := pedersenCommitOps hGen (-((amount : Nat) : Scalar)) 0
        .ok (za1,
             { pa1 with commitmentLeft := g1Add pa1.commitmentLeft amountCommitment },
             { nonce := nonce, epoch := currentEpoch, used := true })

/-- The pre-nonce commitment validation at the top of
`processor::process_transfer`: when every commitment decodes, any identity
commitment aborts with `TransferProofVerificationFailed`; if some commitment
fails to decode the batch validation is silently skipped. -/
def transferStage1 (commitmentsC : List (List Nat)) : Bool :=
  match commitmentsC.mapM decodePoint with
  | some points => verifyRangeConstraints points
  | none => true

/-- The per-participant loop of `process_transfer` (accounts are consumed in
`(zerosol, pending)` pairs; the loop breaks once `public_keys` is
exhausted, leaving the remaining accounts untouched).  Indexing
`commitments_c[i]` out of bounds is a Rust panic. -/
def transferLoop (commitmentsC : List (List Nat)) (commitmentD : List Nat)
    (numPks currentEpoch : Nat) :
    Nat → List (ZerosolAccountM × PendingAccountM) →
    Except ProgErr (List (ZerosolAccountM × PendingAccountM))
  | _, [] => .ok []
  | i, (za, pa) :: rest =>
    if i ≥ numPks then .ok ((za, pa) :: rest)
    else if ¬ za.isRegistered then .error (.zerosol .AccountNotRegistered)
    else
      let rolled :=
        if za.lastRollover < currentEpoch then rolloverAccount za pa currentEpoch
        else (za, pa)
      match commitmentsC[i]? with
      | none => .error .indexPanic
      | some cb =>
        match decodePoint cb with
        | none => .error .invalidAccountData
        | some cPoint =>
          match decodePoint commitmentD with
          | none => .error .invalidAccountData
          | some dPoint =>
            let pa2 : PendingAccountM :=
              { commitmentLeft := g1Add rolled.2.commitmentLeft cPoint,
                commitmentRight := g1Add rolled.2.commitmentRight dPoint }
            (transferLoop commitmentsC commitmentD numPks currentEpoch (i + 1) rest).map
              (fun tail => (rolled.1, pa2) :: tail)

/-- Result state of a transfer: beneficiary pair, participant pairs, nonce
record. -/
abbrev TransferResult :=
  (ZerosolAccountM × PendingAccountM) × List (ZerosolAccountM × PendingAccountM) × NonceStateM

/-- Rust `processor::process_transfer`: commitment pre-validation; nonce gate
(again only `used` is consulted); transfer proof; beneficiary fee credit
(`fee·G` through the precomputed table); participant updates; nonce marked
used for the current epoch.  No structural validation of `public_keys`
(emptiness, duplicates, power-of-two size) is performed anywhere. -/
def processTransfer (sha : List Nat → List Nat) (hGen : Point)
    (beneficiary : ZerosolAccountM × PendingAccountM)
    (nonceAccount : Option NonceStateM)
    (fee epochLength now : Nat)
    (participants : List (ZerosolAccountM × PendingAccountM))
    (commitmentsC : List (List Nat)) (commitmentD : List Nat)
    (publicKeys : List (List Nat)) (nonce : List Nat) (proof : ZerosolProofW) :
    Except ProgErr TransferResult :=
  if ¬ transferStage1 commitmentsC then .error (.zerosol .TransferProofVerificationFailed)
  else if (nonceAccount.map (·.used)).getD false then .error (.zerosol .NonceAlreadySeen)
  else
    let currentEpoch := epochOf now epochLength
    if ¬ verifyTransferProof sha hGen proof commitmentsC commitmentD publicKeys currentEpoch then
      .error (.zerosol .TransferProofVerificationFailed)
    else if ¬ beneficiary.1.isRegistered then .error (.zerosol .AccountNotRegistered)
    else
      let rolled :=
        if beneficiary.1.lastRollover < currentEpoch then
          rolloverAccount beneficiary.1 beneficiary.2 currentEpoch
        else beneficiary
      let bp1 : PendingAccountM :=
        { rolled.2 with
            commitmentLeft := g1Add rolled.2.commitmentLeft (g1Mul hGen 1 ((fee : Nat) : Scalar)) }
      (transferLoop commitmentsC commitmentD publicKeys.length currentEpoch 0 participants).map
        (fun parts =>
          ((rolled.1, bp1), parts, { nonce := nonce, epoch := currentEpoch, used := true }))

/-! ## Batch inversion (`curve_ops.rs`, `SpecializedOps::batch_invert`)

The scalar type is the field ℤ/ℓ (ℓ prime); `Scalar::invert` computes the
multiplicative inverse (by raising to `ℓ − 2`), and inverting zero yields
zero, matching Mathlib's `x⁻¹` junk-value convention.  The algorithm is
stated over an arbitrary decidable field so that its correctness — which
only uses the field axioms — applies to ℤ/ℓ. -/

/-- The forward pass of `batch_invert`: starting from accumulator `acc`,
reject any zero entry, record the running prefix products and return them
with the total product. -/
def batchInvertFwd {F : Type} [Field F] [DecidableEq F] :
    List F → F → Option (List F × F)
  | [], acc => some ([], acc)
  | x :: xs, acc =>
    if x = 0 then none
    else
      match batchInvertFwd xs (acc * x) with
      | none => none
      | some (ps, total) => some (acc :: ps, total)

/-- The backward pass of `batch_invert`: walking the prefix products and the
scalars from the back with the running inverse accumulator, produce the
results and the final accumulator value. -/
def batchInvertBwd {F : Type} [Field F] :
    List F → List F → F → List F × F
  | p :: ps, x :: xs, invAcc =>
    let (rs, invAcc1) := batchInvertBwd ps xs invAcc
    (p * invAcc1 :: rs, invAcc1 * x)
  | _, _, invAcc => ([], invAcc)

/-- Rust `SpecializedOps::batch_invert`: Montgomery's trick; `none` models
`Err(ProgramError::InvalidArgument)` on a zero entry. -/
def batchInvert {F : Type} [Field F] [DecidableEq F] (scalars : List F) :
    Option (List F) :=
  if scalars.isEmpty then some []
  else
    match batchInvertFwd scalars 1 with
    | none => none
    | some (products, total) => some (batchInvertBwd products scalars total⁻¹).1

/-! ## Sanity checks of the embedding -/

example : ell = 2 ^ 252 + 27742317777372353535851937790883648493 := by decide
example : tableScalarMul 1 5 = ((2 ^ 252 * 5 : Nat) : Scalar) := by decide
example : decodePoint (leBytes32 0) = some 0 := by decide
example : strBytes "V" = [86] := by decide
example : asciiDigits 12 = [49, 50] := by decide

deriving instance DecidableEq for Except

/-! ## Fixed concrete data used by closed witnesses and counterexamples -/

/-- A concrete stand-in for the abstract SHA-256 parameter (valid
instantiation point for universally quantified theorems). -/
def shaNil : List Nat → List Nat := fun _ => []

/-- 32 zero bytes. -/
def z32 : List Nat := leBytes32 0

/-! ## Claim C6 — rollover idempotence -/

/-- C6: for every account state and fixed epoch, a second `RollOver` within
the same epoch is a no-op: settled commitments, `last_rollover` and pending
commitments are all left unchanged by the repeated call.  **Confirmed.** -/
theorem rollover_second_call_noop (za : ZerosolAccountM) (pa : PendingAccountM)
    (epochLength now1 now2 : Nat)
    (hsame : epochOf now1 epochLength = epochOf now2 epochLength) :
    processRollover (processRollover za pa epochLength now1).1
        (processRollover za pa epochLength now1).2 epochLength now2 =
      processRollover za pa epochLength now1 := by
  unfold processRollover
  rw [← hsame]
  by_cases hc : za.lastRollover ≥ epochOf now1 epochLength
  · simp [rolloverAccount, hc]
  · simp [rolloverAccount, hc]

/-- Witness for C6 at a concrete state and clock. -/
theorem rollover_second_call_noop_witness :
    epochOf 3 2 = epochOf 2 2 ∧
      processRollover (processRollover (zerosolAccountNew []) pendingAccountNew 2 3).1
          (processRollover (zerosolAccountNew []) pendingAccountNew 2 3).2 2 2 =
        processRollover (zerosolAccountNew []) pendingAccountNew 2 3 :=
  ⟨by decide,
   rollover_second_call_noop (zerosolAccountNew []) pendingAccountNew 2 3 2 (by decide)⟩

/-! ## Claim C9 — precomputed-table scalar multiplication -/

/-- C9: the claim states `PrecomputedTable::scalar_mul(s)` equals `s·P`.
The code contradicts its own test `test_precomputed_table` (which asserts
this at `s = 5` for the basepoint table): `scalar_mul` walks the
little-endian bytes of the scalar most-significant-first and doubles four
extra times after the last nibble, so for `s = 5` it returns
`(5·2^252 mod ℓ)·P`, not `5·P`.  `fast_scalar_mul(G, 5)` takes exactly this
table path.  **Code bug.** -/
theorem table_scalar_mul_wrong_multiple :
    (∀ hGen : Point, fastScalarMul hGen 1 5 = tableScalarMul 1 5) ∧
      tableScalarMul 1 5 = ((5 * 2 ^ 252 : Nat) : Scalar) ∧
      tableScalarMul 1 5 ≠ (5 : Scalar) * 1 := by
  refine ⟨fun hGen => rfl, by decide, by decide⟩

/-! ## Claim C2 — Fund increases the pending left commitment -/

/-- A registered account whose `last_rollover` already equals the current
epoch (concrete data for the C2 evaluation). -/
def c2Account : ZerosolAccountM :=
  { commitmentLeft := 3, commitmentRight := 4, publicKey := z32,
    lastRollover := 7, isRegistered := true }

/-- Concrete pending account for the C2 evaluation. -/
def c2Pending : PendingAccountM := { commitmentLeft := 5, commitmentRight := 6 }

/-- C2: the claim states `Fund(a)` adds exactly `a·G` to `C_pending.L`.  The
live path (`lib.rs` always initialises the accelerator) computes the amount
commitment with `CurveOpsManager::pedersen_commit`, which uses the buggy
precomputed table: funding `a = 1` in the current epoch adds
`(2^252 mod ℓ)·G`, not `1·G`.  Only the pending left commitment changes
(the frame part of the claim holds), but the delta is wrong; the code
contradicts its own test `test_curve_ops_manager`.  **Code bug.** -/
theorem fund_adds_wrong_multiple :
    processFund 0 c2Account c2Pending 1 7 1 =
      .ok (c2Account,
        { commitmentLeft := (5 : Point) + ((2 ^ 252 : Nat) : Scalar) * 1,
          commitmentRight := 6 }) ∧
      ((2 ^ 252 : Nat) : Scalar) * 1 ≠ ((1 : Nat) : Scalar) * 1 := by
  refine ⟨by decide, by decide⟩

/-! ## Claim C7 — transcript challenges -/

/-- C7: the claim states `challenge_scalar` folds the produced scalar back
into the transcript state, so repeated challenges with the same label are
distinct and later challenges depend on earlier absorbed data.  The code
calls `finalize_reset`, which wipes the hasher: on a fresh transcript two
successive `challenge_scalar(label)` calls return the *same* scalar, the
post-challenge state is the empty state regardless of everything absorbed
before, and any challenge issued after a challenge depends only on data
absorbed after it.  **Code bug.** -/
theorem transcript_challenge_resets :
    ∀ (sha : List Nat → List Nat) (t t' : Transcript) (label label2 : List Nat),
      (tChallenge sha (tChallenge sha tNew label).2 label).1 =
          (tChallenge sha tNew label).1 ∧
        (tChallenge sha t label).2 = (tChallenge sha t' label).2 ∧
        (tChallenge sha (tChallenge sha t label).2 label2).1 =
          scalarFromBytes (sha label2) := by
  intro sha t t' label label2
  refine ⟨rfl, rfl, ?_⟩
  simp [tChallenge]

/-! ## Claim C1 — state created by Register -/

/-- C1 (amended): after a successful `Register` with public key `pk`, the
Zerosol (settled) account holds `(O, O)`, the pending account holds
`(pk, G)`, and `last_rollover = 0` — the clock is not consulted at
registration.  (The claim as stated has settled and pending swapped and
`last_epoch = epoch(now)`.) -/
theorem register_initial_state (sha : List Nat → List Nat) (hGen : Point)
    (programId publicKey challenge response : List Nat)
    (out : ZerosolAccountM × PendingAccountM)
    (hok : processRegister sha hGen programId publicKey challenge response = .ok out) :
    out.1.commitmentLeft = 0 ∧ out.1.commitmentRight = 0 ∧
      out.1.lastRollover = 0 ∧ out.1.isRegistered = true ∧
      decodePoint publicKey = some out.2.commitmentLeft ∧
      out.2.commitmentRight = 1 := by
  unfold processRegister at hok
  cases hd : decodePoint publicKey with
  | none => rw [hd] at hok; exact absurd hok (by simp)
  | some pk =>
    rw [hd] at hok
    by_cases hs : verifySchnorrSignature sha hGen pk programId
        (scalarFromBytes challenge) (scalarFromBytes response)
    · simp only [hs, not_true, if_neg, ite_false, Except.ok.injEq] at hok
      subst hok
      simp [zerosolAccountNew]
    · simp [hs] at hok

/-- The account pair produced by the concrete registration used to settle
C1 (public key `G`, all-zero Schnorr data, SHA modelled as the constant
empty digest, under which the signature check passes). -/
def c1Out : ZerosolAccountM × PendingAccountM :=
  ({ commitmentLeft := 0, commitmentRight := 0, publicKey := leBytes32 1,
     lastRollover := 0, isRegistered := true },
   { commitmentLeft := 1, commitmentRight := 1 })

/-- C1 counterexample: a successful registration with `pk = G` at a clock
whose epoch is 5 produces a state that violates the claim — the settled
commitment is `(O, O)` rather than `(pk, G)`, the pending commitment is
`(pk, G)` rather than `(O, O)`, and `last_rollover` is 0, not
`epoch(now) = 5`. -/
theorem register_claim_false_at_G :
    processRegister shaNil 0 [] (leBytes32 1) z32 z32 = .ok c1Out ∧
      ¬ (c1Out.1.commitmentLeft = 1 ∧ c1Out.1.commitmentRight = 1 ∧
          c1Out.2.commitmentLeft = 0 ∧ c1Out.2.commitmentRight = 0 ∧
          c1Out.1.lastRollover = epochOf 5 1) := by
  refine ⟨by decide, by decide⟩

/-- The registration output for the C1 witness run. -/
def c1OutW : ZerosolAccountM × PendingAccountM :=
  ({ commitmentLeft := 0, commitmentRight := 0, publicKey := leBytes32 2,
     lastRollover := 0, isRegistered := true },
   { commitmentLeft := 2, commitmentRight := 1 })

/-- Witness for C1 (amended) at a concrete successful registration. -/
theorem register_initial_state_witness :
    processRegister shaNil 0 [] (leBytes32 2) z32 z32 = .ok c1OutW ∧
      (c1OutW.1.commitmentLeft = 0 ∧ c1OutW.1.commitmentRight = 0 ∧
        c1OutW.1.lastRollover = 0 ∧ c1OutW.1.isRegistered = true ∧
        decodePoint (leBytes32 2) = some c1OutW.2.commitmentLeft ∧
        c1OutW.2.commitmentRight = 1) :=
  ⟨by decide,
   register_initial_state shaNil 0 [] (leBytes32 2) z32 z32 c1OutW (by decide)⟩

/-! ## Claim C4 — the t̂ check of the range-proof verifier -/

/-- Modelled from the spec (§4.5 step 4): the claimed
`δ(y,z) = (z − z²)·Σ_{i<n} y^i − Σ_{j=1..m} z^{j+2}·Σ_{i<n} 2^i`. -/
def specDelta (y z : Scalar) (m n : Nat) : Scalar :=
  (z - z * z) * (List.range n).foldl (fun acc i => acc + y ^ i) 0 -
    (List.range m).foldl
      (fun acc j => acc + z ^ (j + 1 + 2) *
        (List.range n).foldl (fun acc2 i => acc2 + ((2 ^ i : Nat) : Scalar)) 0) 0

/-- Modelled from the spec (§4.5 step 5): the claimed polynomial identity
`t̂·G + τ_x·H == Σⱼ z^{j+1}·V_j + δ(y,z)·G + x·T1 + x²·T2`, stated on
discrete logarithms (`G = 1`, `H = hGen`). -/
def specTHatIdentity (hGen : Point) (tHat tauX x y z : Scalar) (vs : List Point)
    (t1P t2P : Point) (n : Nat) : Prop :=
  tHat * 1 + tauX * hGen =
    ((List.range vs.length).foldl (fun acc j => acc + z ^ (j + 1 + 1) * vs.getD j 0) 0) +
      specDelta y z vs.length n * 1 + x * t1P + x * x * t2P

/-- C4: the claim states the verifier's check on `t̂` is the group identity
involving `τ_x`, `T1`, `T2` and the commitments, and that a proof is
rejected when that equation fails.  In the code, `verify_range_proof`
compares `t̂` with `compute_t_hat(y, z, n)` — a pure function of the two
challenges — and never reads `τ_x` at all, so its verdict is invariant under
any change of `τ_x`; the spec identity, by contrast, distinguishes `τ_x = 0`
from `τ_x = 1` whenever `H ≠ O`.  **Code bug** (the spec's §9 marks the
verification entry points as placeholders to be completed).  -/
theorem range_proof_that_check_ignores_tau_x :
    (∀ (sha : List Nat → List Nat) (hGen : Point) (nMax : Nat) (commitment : Point)
        (proof : RangeProofM) (bitLength : Nat) (tau : Scalar),
        verifyRangeProof sha hGen nMax commitment { proof with tauX := tau } bitLength =
          verifyRangeProof sha hGen nMax commitment proof bitLength) ∧
      (∀ (hGen : Point) (tHat x y z : Scalar) (t1P t2P : Point) (n : Nat),
        hGen ≠ 0 →
          ¬ (specTHatIdentity hGen tHat 0 x y z [] t1P t2P n ∧
              specTHatIdentity hGen tHat 1 x y z [] t1P t2P n)) := by
  constructor
  · intro sha hGen nMax commitment proof bitLength tau
    cases proof
    rfl
  · intro hGen tHat x y z t1P t2P n hne ⟨h0, h1⟩
    unfold specTHatIdentity at h0 h1
    apply hne
    have hEq := h0.trans h1.symm
    linear_combination -hEq

/-- Witness for C4 at concrete values (`H` instantiated at any nonzero
point, both hypotheses discharged concretely). -/
theorem range_proof_that_check_ignores_tau_x_witness :
    verifyRangeProof shaNil 0 64 0
        { a := 0, s := 0, t1 := 0, t2 := 0, tHat := 0, tauX := 7, mu := 0,
          ipp := { lVec := [], rVec := [], a := 0, b := 0 } } 32 =
      verifyRangeProof shaNil 0 64 0
        { a := 0, s := 0, t1 := 0, t2 := 0, tHat := 0, tauX := 3, mu := 0,
          ipp := { lVec := [], rVec := [], a := 0, b := 0 } } 32 ∧
      ¬ (specTHatIdentity 1 0 0 0 0 0 [] 0 0 32 ∧
          specTHatIdentity 1 0 1 0 0 0 [] 0 0 32) :=
  ⟨(range_proof_that_check_ignores_tau_x.1 shaNil 0 64 0
      { a := 0, s := 0, t1 := 0, t2 := 0, tHat := 0, tauX := 3, mu := 0,
        ipp := { lVec := [], rVec := [], a := 0, b := 0 } } 32 7),
   range_proof_that_check_ignores_tau_x.2 1 0 0 0 0 0 0 32 (by decide)⟩

/-! ## Claim C10 — identity / non-canonical public keys fail verification -/

/-- C10: every transfer whose public-key list contains the encoding of the
identity point or a byte string that is not a canonical encoding fails proof
verification: `verify_transfer_proof` only returns `true` through
`verify_epoch_constraints`, which requires every public key to decode to a
non-identity point.  **Confirmed.** -/
theorem transfer_proof_rejects_bad_pk (sha : List Nat → List Nat) (hGen : Point)
    (proof : ZerosolProofW) (commitmentsC : List (List Nat)) (commitmentD : List Nat)
    (publicKeys : List (List Nat)) (epoch : Nat) (bad : List Nat)
    (hmem : bad ∈ publicKeys)
    (hbad : decodePoint bad = none ∨ decodePoint bad = some 0) :
    verifyTransferProof sha hGen proof commitmentsC commitmentD publicKeys epoch = false := by
  have hepoch : verifyEpochConstraints epoch publicKeys = false := by
    rw [← Bool.not_eq_true]
    intro hall
    rw [verifyEpochConstraints, List.all_eq_true] at hall
    have hb := hall bad hmem
    cases hbad with
    | inl hnone => rw [hnone] at hb; exact absurd hb (by simp)
    | inr hid => rw [hid] at hb; simp at hb
  unfold verifyTransferProof
  split
  · rfl
  · split
    · split
      · rfl
      · split
        · split
          · exact hepoch
          · rfl
        · rfl
    · rfl

/-- Witness for C10: a transfer whose public-key list contains the 32-zero
encoding of the identity point is rejected. -/
theorem transfer_proof_rejects_bad_pk_witness :
    z32 ∈ [z32] ∧ decodePoint z32 = some 0 ∧
      verifyTransferProof shaNil 0
        { ba := [], bs := [], a := [], b := [], clnG := [], crnG := [], c0G := [],
          dg := [], y0G := [], gg := [], cXg := [], yXg := [], f := [], zA := [],
          t1 := [], t2 := [], tHat := [], mu := [], c := [], sSk := [], sR := [],
          sB := [], sTau := [], ipProof := { lPoints := [], rPoints := [], a := [], b := [] } }
        [] z32 [z32] 0 = false :=
  ⟨by decide, by decide,
   transfer_proof_rejects_bad_pk shaNil 0 _ [] z32 [z32] 0 z32 (by decide)
     (Or.inr (by decide))⟩

/-! ## Claim C3 — nonce replay across epochs -/

/-- A syntactically trivial burn proof (only used on paths that never reach
proof verification). -/
def burnProofTrivial : BurnProofW :=
  { ba := [], bs := [], t1 := [], t2 := [], tHat := [], mu := [], c := [],
    sSk := [], sB := [], sTau := [],
    ipProof := { lPoints := [], rPoints := [], a := [], b := [] } }

/-- A syntactically trivial transfer proof. -/
def zerosolProofTrivial : ZerosolProofW :=
  { ba := [], bs := [], a := [], b := [], clnG := [], crnG := [], c0G := [],
    dg := [], y0G := [], gg := [], cXg := [], yXg := [], f := [], zA := [],
    t1 := [], t2 := [], tHat := [], mu := [], c := [], sSk := [], sR := [],
    sB := [], sTau := [],
    ipProof := { lPoints := [], rPoints := [], a := [], b := [] } }

/-- C3 (amended): for Transfer and Burn, an instruction presented with a
nonce record whose `used` flag is set returns `NonceAlreadySeen` with no
state mutation — in the same epoch *and in every later epoch alike*: the
nonce gate reads only `used` and never compares the record's stored epoch
with the current epoch, so a stale-epoch nonce record still causes
rejection.  (The claim as stated says the same nonce is accepted in a
strictly later epoch.)  For Burn the amount must pass the preceding range
gate; for Transfer the commitment pre-validation must pass. -/
theorem used_nonce_rejected_regardless_of_epoch
    (sha : List Nat → List Nat) (hGen : Point)
    (za : ZerosolAccountM) (pa : PendingAccountM) (ns : NonceStateM)
    (epochLength now amount : Nat) (nonce : List Nat) (proofB : BurnProofW)
    (benef : ZerosolAccountM × PendingAccountM) (fee : Nat)
    (participants : List (ZerosolAccountM × PendingAccountM))
    (commitmentsC : List (List Nat)) (commitmentD : List Nat)
    (publicKeys : List (List Nat)) (proofT : ZerosolProofW)
    (hused : ns.used = true)
    (hamt : amount ≤ MAX_TRANSFER_AMOUNT)
    (hstage1 : transferStage1 commitmentsC = true) :
    processBurn sha hGen za pa (some ns) epochLength now amount nonce proofB =
        .error (.zerosol .NonceAlreadySeen) ∧
      processTransfer sha hGen benef (some ns) fee epochLength now participants
          commitmentsC commitmentD publicKeys nonce proofT =
        .error (.zerosol .NonceAlreadySeen) := by
  constructor
  · unfold processBurn
    rw [if_neg (by omega)]
    simp [hused]
  · unfold processTransfer
    rw [hstage1]
    simp [hused]

/-- C3 counterexample: a Burn presented in epoch 1 with the nonce record
marked used in epoch 0 (a strictly earlier epoch) is rejected with
`NonceAlreadySeen`; the claim says it would be accepted. -/
theorem used_nonce_from_stale_epoch_still_rejected :
    processBurn shaNil 0 (zerosolAccountNew z32) pendingAccountNew
        (some { nonce := z32, epoch := 0, used := true }) 1 1 0 z32 burnProofTrivial =
      .error (.zerosol .NonceAlreadySeen) := by decide

/-- Witness for C3 (amended) at concrete inputs. -/
theorem used_nonce_rejected_regardless_of_epoch_witness :
    (0 ≤ MAX_TRANSFER_AMOUNT ∧ transferStage1 [] = true) ∧
      processBurn shaNil 0 (zerosolAccountNew z32) pendingAccountNew
          (some { nonce := z32, epoch := 3, used := true }) 1 9 0 z32 burnProofTrivial =
        .error (.zerosol .NonceAlreadySeen) ∧
      processTransfer shaNil 0 (zerosolAccountNew z32, pendingAccountNew)
          (some { nonce := z32, epoch := 3, used := true }) 0 1 9 [] [] z32 [] z32
          zerosolProofTrivial =
        .error (.zerosol .NonceAlreadySeen) :=
  ⟨⟨by decide, by decide⟩,
   used_nonce_rejected_regardless_of_epoch shaNil 0 (zerosolAccountNew z32)
     pendingAccountNew { nonce := z32, epoch := 3, used := true } 1 9 0 z32
     burnProofTrivial (zerosolAccountNew z32, pendingAccountNew) 0 [] [] z32 []
     zerosolProofTrivial (by decide) (by decide) (by decide)⟩

/-! ## Claim C5 — structural validation of the participant list -/

/-- Helper: the participant-update loop of `process_transfer` can fail only
with `AccountNotRegistered`, `indexPanic` or `invalidAccountData` — never
with `InvalidProofStructure`. -/
theorem transferLoop_no_invalid_proof_structure
    (commitmentsC : List (List Nat)) (commitmentD : List Nat)
    (numPks currentEpoch : Nat) :
    ∀ (i : Nat) (participants : List (ZerosolAccountM × PendingAccountM)),
      transferLoop commitmentsC commitmentD numPks currentEpoch i participants ≠
        .error (.zerosol .InvalidProofStructure) := by
  intro i participants
  induction participants generalizing i with
  | nil => simp [transferLoop]
  | cons head rest ih =>
    obtain ⟨za, pa⟩ := head
    by_cases h1 : i ≥ numPks
    · simp [transferLoop, h1]
    · by_cases h2 : za.isRegistered
      · cases hg : commitmentsC[i]? with
        | none => simp [transferLoop, h1, h2, hg]
        | some cb =>
          cases hc : decodePoint cb with
          | none => simp [transferLoop, h1, h2, hg, hc]
          | some cP =>
            cases hd : decodePoint commitmentD with
            | none => simp [transferLoop, h1, h2, hg, hc, hd]
            | some dP =>
              cases hrec : transferLoop commitmentsC commitmentD numPks currentEpoch
                  (i + 1) rest with
              | ok tail => simp [transferLoop, h1, h2, hg, hc, hd, hrec, Except.map]
              | error err =>
                have hne := ih (i + 1)
                rw [hrec] at hne
                simp [transferLoop, h1, h2, hg, hc, hd, hrec, Except.map]
                intro heq
                exact hne (by rw [heq])
      · simp [transferLoop, h1, h2]

/-- C5 (amended): `process_transfer` performs no structural validation of
the participant public-key list — an empty list, duplicate keys, or a
non-power-of-two size are never rejected with `InvalidProofStructure`; in
fact no execution path of the handler produces that error (such transfers
fail later, e.g. at proof verification, with other errors). -/
theorem transfer_never_returns_invalid_proof_structure
    (sha : List Nat → List Nat) (hGen : Point)
    (beneficiary : ZerosolAccountM × PendingAccountM)
    (nonceAccount : Option NonceStateM) (fee epochLength now : Nat)
    (participants : List (ZerosolAccountM × PendingAccountM))
    (commitmentsC : List (List Nat)) (commitmentD : List Nat)
    (publicKeys : List (List Nat)) (nonce : List Nat) (proof : ZerosolProofW) :
    processTransfer sha hGen beneficiary nonceAccount fee epochLength now participants
        commitmentsC commitmentD publicKeys nonce proof ≠
      .error (.zerosol .InvalidProofStructure) := by
  by_cases hs1 : transferStage1 commitmentsC
  · by_cases hn : (nonceAccount.map (·.used)).getD false
    · simp [processTransfer, hs1, hn]
    · by_cases hv : verifyTransferProof sha hGen proof commitmentsC commitmentD publicKeys
          (epochOf now epochLength)
      · by_cases hr : beneficiary.1.isRegistered
        · cases hrec : transferLoop commitmentsC commitmentD publicKeys.length
              (epochOf now epochLength) 0 participants with
          | ok parts => simp [processTransfer, hs1, hn, hv, hr, hrec, Except.map]
          | error err =>
            have hne := transferLoop_no_invalid_proof_structure commitmentsC commitmentD
              publicKeys.length (epochOf now epochLength) 0 participants
            rw [hrec] at hne
            simp [processTransfer, hs1, hn, hv, hr, hrec, Except.map]
            intro heq
            exact hne (by rw [heq])
        · simp [processTransfer, hs1, hn, hv, hr]
      · simp [processTransfer, hs1, hn, hv]
  · simp [processTransfer, hs1]

/-- C5 counterexample: a transfer whose public-key list holds the same key
twice (`[G, G]`) is not rejected with `InvalidProofStructure`; with an
identity commitment in `commitments_c` it fails the commitment
pre-validation and returns `TransferProofVerificationFailed` instead. -/
theorem transfer_duplicates_not_rejected_as_structural :
    processTransfer shaNil 0 (zerosolAccountNew z32, pendingAccountNew) none 0 1 0 []
        [z32] z32 [leBytes32 1, leBytes32 1] z32 zerosolProofTrivial =
      .error (.zerosol .TransferProofVerificationFailed) ∧
      ZerosolError.TransferProofVerificationFailed ≠ ZerosolError.InvalidProofStructure := by
  refine ⟨by decide, by decide⟩

/-! ## Claim C8 — batch inversion -/

/-- The prefix products recorded by the forward pass: starting from `acc`,
the running product of all earlier entries. -/
def prefixProds {F : Type} [Field F] (acc : F) : List F → List F
  | [] => []
  | x :: xs => acc :: prefixProds (acc * x) xs

/-- The forward pass on a zero-free list records the prefix products and the
total product. -/
theorem batchInvertFwd_eq {F : Type} [Field F] [DecidableEq F] (s : List F)
    (hnz : ∀ x ∈ s, x ≠ 0) :
    ∀ acc : F, batchInvertFwd s acc = some (prefixProds acc s, acc * s.prod) := by
  induction s with
  | nil => intro acc; simp [batchInvertFwd, prefixProds]
  | cons x xs ih =>
    intro acc
    have hx : x ≠ 0 := hnz x (List.mem_cons_self x xs)
    have ihx := ih (fun y hy => hnz y (List.mem_cons_of_mem x hy)) (acc * x)
    simp [batchInvertFwd, hx, ihx, prefixProds, List.prod_cons, mul_assoc]

/-- The forward pass fails exactly on a zero entry. -/
theorem batchInvertFwd_eq_none {F : Type} [Field F] [DecidableEq F] (s : List F)
    (x : F) (hmem : x ∈ s) (hzero : x = 0) :
    ∀ acc : F, batchInvertFwd s acc = none := by
  induction s with
  | nil => cases hmem
  | cons y ys ih =>
    intro acc
    by_cases hy : y = 0
    · simp [batchInvertFwd, hy]
    · have hxs : x ∈ ys := by
        cases List.mem_cons.mp hmem with
        | inl h => exact absurd (h ▸ hzero) hy
        | inr h => exact h
      simp [batchInvertFwd, hy, ih hxs]

/-- The backward pass applied to the structures the forward pass produced
computes the element-wise inverses and the inverse of the initial
accumulator. -/
theorem batchInvertBwd_eq {F : Type} [Field F] [DecidableEq F] (s : List F)
    (hnz : ∀ x ∈ s, x ≠ 0) :
    ∀ acc : F, acc ≠ 0 →
      batchInvertBwd (prefixProds acc s) s (acc * s.prod)⁻¹ =
        (s.map (fun x => x⁻¹), acc⁻¹) := by
  induction s with
  | nil => intro acc _; simp [prefixProds, batchInvertBwd]
  | cons x xs ih =>
    intro acc hacc
    have hx : x ≠ 0 := hnz x (List.mem_cons_self x xs)
    have hax : acc * x ≠ 0 := mul_ne_zero hacc hx
    have ihx := ih (fun y hy => hnz y (List.mem_cons_of_mem x hy)) (acc * x) hax
    have hassoc : acc * (x :: xs).prod = acc * x * xs.prod := by
      rw [List.prod_cons, mul_assoc]
    rw [prefixProds, hassoc, batchInvertBwd, ihx]
    simp only [Prod.mk.injEq, List.map_cons, List.cons.injEq]
    refine ⟨⟨?_, trivial⟩, ?_⟩
    · rw [mul_inv, ← mul_assoc, mul_inv_cancel₀ hacc, one_mul]
    · rw [mul_inv, mul_assoc, inv_mul_cancel₀ hx, mul_one]

/-- C8: on a vector of nonzero scalars `batch_invert` returns a vector of
the same length whose entries are the multiplicative inverses (so
`s_i · batch_invert(s)_i = 1` for every index), and it returns the
division-by-zero error whenever some entry is zero.  Stated over any
decidable field, hence in particular over the program's scalar field ℤ/ℓ.
**Confirmed.** -/
theorem batch_invert_correct {F : Type} [Field F] [DecidableEq F] (s : List F) :
    ((∀ x ∈ s, x ≠ 0) →
      ∃ r, batchInvert s = some r ∧ r.length = s.length ∧
        ∀ (i : Nat) (hi : i < s.length) (hr : i < r.length),
          s.get ⟨i, hi⟩ * r.get ⟨i, hr⟩ = 1) ∧
      ((∃ x ∈ s, x = 0) → batchInvert s = none) := by
  constructor
  · intro hnz
    refine ⟨s.map (fun x => x⁻¹), ?_, by simp, ?_⟩
    · cases hs : s with
      | nil => simp [batchInvert]
      | cons x xs =>
        rw [← hs]
        have hne : ¬ s.isEmpty := by rw [hs]; simp
        have hfwd := batchInvertFwd_eq s hnz 1
        have hbwd := batchInvertBwd_eq s hnz 1 one_ne_zero
        rw [batchInvert, if_neg hne, hfwd]
        show some (batchInvertBwd (prefixProds 1 s) s (1 * s.prod)⁻¹).1 =
          some (List.map (fun x => x⁻¹) s)
        rw [hbwd]
    · intro i hi hr
      have hget : (s.map (fun x => x⁻¹)).get ⟨i, hr⟩ = (s.get ⟨i, hi⟩)⁻¹ := by
        simp [List.get_map]
      rw [hget]
      exact mul_inv_cancel₀ (hnz (s.get ⟨i, hi⟩) (s.get_mem i hi))
  · intro hz
    obtain ⟨x, hmem, hzero⟩ := hz
    have hne : ¬ s.isEmpty := by
      cases s with
      | nil => cases hmem
      | cons y ys => simp
    rw [batchInvert, if_neg hne, batchInvertFwd_eq_none s x hmem hzero 1]

/-- Witness instance: 7 is prime, so ℤ/7 is a decidable field. -/
instance fact_prime_7 : Fact (Nat.Prime 7) := ⟨by norm_num⟩

/-- Witness for C8 on the concrete field ℤ/7 and the vector `[2, 3]` (both
halves of the theorem exercised: the nonzero case, and the zero case on
`[2, 0]`). -/
theorem batch_invert_correct_witness :
    ((∀ x ∈ ([2, 3] : List (ZMod 7)), x ≠ 0) ∧
      ∃ r, batchInvert ([2, 3] : List (ZMod 7)) = some r ∧
        r.length = ([2, 3] : List (ZMod 7)).length ∧
        ∀ (i : Nat) (hi : i < ([2, 3] : List (ZMod 7)).length)
          (hr : i < r.length),
          ([2, 3] : List (ZMod 7)).get ⟨i, hi⟩ * r.get ⟨i, hr⟩ = 1) ∧
      ((∃ x ∈ ([2, 0] : List (ZMod 7)), x = 0) ∧
        batchInvert ([2, 0] : List (ZMod 7)) = none) :=
  ⟨⟨by decide, (batch_invert_correct ([2, 3] : List (ZMod 7))).1 (by decide)⟩,
   ⟨⟨(0 : ZMod 7), by decide, rfl⟩,
    (batch_invert_correct ([2, 0] : List (ZMod 7))).2 ⟨(0 : ZMod 7), by decide, rfl⟩⟩⟩

end Zerosol
